import Mathlib

/-!
# Nova Feature Alignment & Prediction Dispatch Engine — verification

Shallow embedding of `src/model/serve.py` (`NovaModelServer`): the feature
alignment pass `preprocess_features`, the single-record path `predict`, and
the batch path `predict_batch`.  The companion file
`src/model-bot-backup/serve.py` does not parse as Python (undefined names on
its missing-feature check, a syntax error in its CSV route), so the live
implementation under `src/model/serve.py` is taken as the authority.

Conventions of the embedding:
* A feature record (a Python `dict`) is an association list
  `List (String × Value)` with nodup keys; lookup returns the first binding.
* Scalars are `Value`: a rational number (for Python numerics), a string, or
  `null` (Python `None` / pandas `NaN`).
* The trained model is opaque.  Both backends (`lightgbm` directly,
  `xgboost` through a `DMatrix` wrapper) score each row of the input frame
  independently, so `MODEL.predict` is modelled as a per-row function
  `List Value → ℚ` mapped over the rows of the frame.
* Exceptions become `Except`: the `ValueError` raised on missing features
  carries the list of missing names (Python formats the set into a message
  string; the payload here is the set's elements).
-/

/-- A scalar feature value as it arrives in a request: a Python number,
a string, or null/NaN. -/
inductive Value where
  | num (x : ℚ)
  | str (s : String)
  | null
deriving DecidableEq, Repr

/-- The schema document `schema.json` as read by `load_model`: the fields of
`SCHEMA` that `preprocess_features`/`predict` consult.  (`target_column`,
`model_version`, metrics and so on are never read by the prediction path and
are omitted.) -/
structure Schema where
  feature_names : List String
  categorical_columns : List String
  model_type : String
  task_type : String
deriving DecidableEq, Repr

/-- Dict lookup on an association-list record (first binding wins; Python
dicts have unique keys, so records carry a nodup-keys hypothesis where it
matters). -/
def lookupVal (features : List (String × Value)) (name : String) : Option Value :=
  match features with
  | [] => none
  | (k, v) :: rest => if k = name then some v else lookupVal rest name

/-- Python `str(value)` as applied by `.astype(str)` before categorical
encoding: numbers print, `NaN` prints as the string `nan`. -/
def pyStr : Value → String
  | .num x => toString x
  | .str s => s
  | .null => "nan"

/-- Insert a string into a sorted list of strings. -/
def insertSorted (s : String) : List String → List String
  | [] => [s]
  | t :: ts => if s ≤ t then s :: t :: ts else t :: insertSorted s ts

/-- Insertion sort on strings, modelling the sorted category order that
`pd.Categorical` derives from the values it is given. -/
def sortStrings : List String → List String
  | [] => []
  | s :: ss => insertSorted s (sortStrings ss)

/-- `pd.Categorical(xs).categories`: the sorted distinct values of `xs`. -/
def pdCategories (xs : List String) : List String :=
  sortStrings xs.dedup

/-- `pd.Categorical(xs).codes`: each value's index among the sorted distinct
values of `xs` itself — the categories are recomputed from `xs`, not taken
from any stored table. -/
def pdCategoricalCodes (xs : List String) : List ℤ :=
  xs.map (fun x => ((pdCategories xs).indexOf x : ℤ))

/-- `df.fillna(0)` on one cell: null becomes the number `0`; numbers and
strings are left untouched (pandas `fillna` does not touch non-null cells). -/
def fillna : Value → Value
  | .null => .num 0
  | v => v

/-- One cell of the single-row frame after the categorical-encoding loop of
`preprocess_features`: a column listed in `SCHEMA['categorical_columns']` is
replaced by `pd.Categorical(df[col].astype(str)).codes` — computed over the
one value present in this request's frame — and any other column keeps its
raw value. -/
def alignCell (schema : Schema) (name : String) (v : Value) : Value :=
  if schema.categorical_columns.contains name then
    Value.num (((pdCategoricalCodes [pyStr v]).headD 0 : ℤ) : ℚ)
  else v

/-- `NovaModelServer.preprocess_features` of `src/model/serve.py`:
build a one-row frame from the record, fail with the set of missing
features when any schema feature is absent, reindex the columns to
`SCHEMA['feature_names']` (both arms of the extra-features conditional
perform this same reindex, dropping extras), run the categorical-encoding
loop, then `fillna(0)`.  The result is the aligned single row in schema
column order. -/
def preprocess_features (schema : Schema) (features : List (String × Value)) :
    Except (List String) (List Value) :=
  let provided := features.map Prod.fst
  let missing := schema.feature_names.filter (fun n => !provided.contains n)
  if missing.isEmpty then
    .ok (schema.feature_names.map (fun name =>
      fillna (alignCell schema name ((lookupVal features name).getD Value.null))))
  else
    .error missing

/-- The `(prediction, confidence)` pair returned by
`NovaModelServer.predict`: for classification the prediction is
`int(pred > 0.5)` and the confidence `abs(pred - 0.5) * 2`; for any other
task type the raw value with no confidence. -/
structure PredResult where
  prediction : ℚ
  confidence : Option ℚ
deriving DecidableEq, Repr

/-- `NovaModelServer.predict`: preprocess, dispatch on
`SCHEMA['model_type']` (both branches invoke the same opaque row model —
the `xgboost` arm merely wraps the frame in a `DMatrix`), then normalize by
`SCHEMA['task_type']`. -/
def predict (schema : Schema) (rowModel : List Value → ℚ)
    (features : List (String × Value)) : Except (List String) PredResult :=
  match preprocess_features schema features with
  | .error e => .error e
  | .ok X =>
    let pred := if schema.model_type = "lightgbm" then rowModel X else rowModel X
    if schema.task_type = "classification" then
      .ok ⟨if pred > 1/2 then 1 else 0, some (|pred - 1/2| * 2)⟩
    else
      .ok ⟨pred, none⟩

/-- The list comprehension
`[self.preprocess_features(features) for features in features_list]` of
`predict_batch`: records are preprocessed left to right and the first
exception propagates, abandoning the rest. -/
def preprocessAll (schema : Schema) :
    List (List (String × Value)) → Except (List String) (List (List Value))
  | [] => .ok []
  | f :: rest =>
    match preprocess_features schema f with
    | .error e => .error e
    | .ok x =>
      match preprocessAll schema rest with
      | .error e => .error e
      | .ok xs => .ok (x :: xs)

/-- The `(predictions, confidences)` pair returned by
`NovaModelServer.predict_batch`. -/
structure BatchResult where
  predictions : List ℚ
  confidences : Option (List ℚ)
deriving DecidableEq, Repr

/-- `NovaModelServer.predict_batch`: preprocess every record (first failure
propagates), `pd.concat` the rows and score them in one backend call
(modelled as mapping the per-row model over the rows), then normalize each
raw output exactly as the single path does. -/
def predict_batch (schema : Schema) (rowModel : List Value → ℚ)
    (features_list : List (List (String × Value))) :
    Except (List String) BatchResult :=
  match preprocessAll schema features_list with
  | .error e => .error e
  | .ok Xs =>
    let preds := if schema.model_type = "lightgbm" then Xs.map rowModel else Xs.map rowModel
    if schema.task_type = "classification" then
      .ok ⟨preds.map (fun p => if p > 1/2 then (1 : ℚ) else 0),
           some (preds.map (fun p => |p - 1/2| * 2))⟩
    else
      .ok ⟨preds, none⟩

/-! ## Concrete schemas used by witnesses and counterexamples -/

/-- §8's concrete scenario: features `a` (numeric) and `b` (categorical,
training-time encoding `x ↦ 0`, `y ↦ 1`), a lightgbm classifier. -/
def schemaAB : Schema :=
  ⟨["a", "b"], ["b"], "lightgbm", "classification"⟩

/-- A one-feature classifier schema with the single categorical feature `b`
(training-time encoding `x ↦ 0`, `y ↦ 1`). -/
def schemaCat : Schema :=
  ⟨["b"], ["b"], "lightgbm", "classification"⟩

/-- A one-feature classifier schema whose feature `a` is declared numeric
(not categorical). -/
def schemaNum : Schema :=
  ⟨["a"], [], "lightgbm", "classification"⟩

/-- A one-feature lightgbm regression schema. -/
def schemaReg : Schema :=
  ⟨["a"], [], "lightgbm", "regression"⟩

/-! ## Basic lemmas about the embedding -/

/-- `pd.Categorical` over a single value (the one row of a per-request
frame) always assigns code `0`: the lone value is its own first category. -/
theorem pdCategoricalCodes_singleton (s : String) : pdCategoricalCodes [s] = [0] := by
  have hded : ([s] : List String).dedup = [s] :=
    List.dedup_cons_of_not_mem (List.not_mem_nil s) |>.trans (by rw [List.dedup_nil])
  simp [pdCategoricalCodes, pdCategories, hded, sortStrings, insertSorted,
    List.indexOf_cons_self]

/-- Dict lookup is invariant under reordering the bindings when keys are
distinct (as they are in a Python dict). -/
theorem lookupVal_perm (n : String) :
    ∀ {r1 r2 : List (String × Value)}, r1.Perm r2 → (r1.map Prod.fst).Nodup →
      lookupVal r1 n = lookupVal r2 n := by
  intro r1 r2 hp
  induction hp with
  | nil => intro _; rfl
  | cons x p ih =>
    intro hnd
    simp only [List.map_cons, List.nodup_cons] at hnd
    by_cases h : x.1 = n <;> simp [lookupVal, h, ih hnd.2]
  | swap x y l =>
    intro hnd
    simp only [List.map_cons, List.nodup_cons, List.mem_cons] at hnd
    have hxy : y.1 ≠ x.1 := fun h => hnd.1 (Or.inl h)
    by_cases h1 : y.1 = n <;> by_cases h2 : x.1 = n
    · exact absurd (h1.trans h2.symm) hxy
    · simp [lookupVal, h1, h2]
    · simp [lookupVal, h1, h2]
    · simp [lookupVal, h1, h2]
  | trans p q ih1 ih2 =>
    intro hnd
    exact (ih1 hnd).trans (ih2 (((p.map Prod.fst).nodup_iff).mp hnd))

/-- When alignment succeeds, the aligned row has one cell per schema
feature, in schema order. -/
theorem preprocess_features_ok_length (schema : Schema) (r : List (String × Value))
    (row : List Value) (hok : preprocess_features schema r = .ok row) :
    row.length = schema.feature_names.length := by
  simp only [preprocess_features] at hok
  split at hok
  · cases hok
    simp
  · exact Except.noConfusion hok

/-- When alignment succeeds, the cell at position `i` of the aligned row is
the encoded/filled value of the `i`-th schema feature, looked up in the
record. -/
theorem preprocess_features_ok_cell (schema : Schema) (r : List (String × Value))
    (row : List Value) (hok : preprocess_features schema r = .ok row)
    (i : ℕ) (n : String) (hn : schema.feature_names[i]? = some n) :
    row[i]? = some (fillna (alignCell schema n ((lookupVal r n).getD Value.null))) := by
  simp only [preprocess_features] at hok
  split at hok
  · cases hok
    rw [List.getElem?_map, hn]
    rfl
  · exact Except.noConfusion hok

/-! ## Claim theorems: alignment -/

/-- C1 (code bug): `src/model/serve.py` does not replay the training-time
encoding table at all.  With feature `b` categorical and training-time
encoding `x ↦ 0, y ↦ 1`, the request value `y` should encode to `1` (and an
unseen `z` to the fallback), but the per-request
`pd.Categorical(df[col].astype(str)).codes` over the single-row frame
encodes every value — `y`, `x` and the unseen `z` alike — to `0`,
contradicting the code's own comment `(same as training)`. -/
theorem categorical_encoding_ignores_training_table :
    preprocess_features schemaCat [("b", Value.str "y")] = .ok [Value.num 0] ∧
    preprocess_features schemaCat [("b", Value.str "x")] = .ok [Value.num 0] ∧
    preprocess_features schemaCat [("b", Value.str "z")] = .ok [Value.num 0] :=
  ⟨rfl, rfl, rfl⟩

/-- C4: a record whose key set is a strict subset of the schema's feature
set is rejected: alignment fails, and the error payload names exactly the
schema features absent from the record. -/
theorem missing_features_rejected (schema : Schema) (r : List (String × Value))
    (hsub : ∀ k ∈ r.map Prod.fst, k ∈ schema.feature_names)
    (f0 : String) (hf0 : f0 ∈ schema.feature_names) (hf0n : f0 ∉ r.map Prod.fst) :
    ∃ miss, preprocess_features schema r = .error miss ∧
      ∀ n, n ∈ miss ↔ (n ∈ schema.feature_names ∧ n ∉ r.map Prod.fst) := by
  refine ⟨schema.feature_names.filter (fun n => !(r.map Prod.fst).contains n), ?_, ?_⟩
  · simp only [preprocess_features]
    rw [if_neg]
    intro hemp
    rw [List.isEmpty_iff] at hemp
    have hmem : f0 ∈ schema.feature_names.filter (fun n => !(r.map Prod.fst).contains n) :=
      List.mem_filter.mpr ⟨hf0, by simp [List.contains, List.elem_iff, hf0n]⟩
    rw [hemp] at hmem
    exact List.not_mem_nil f0 hmem
  · intro n
    simp [List.mem_filter, List.contains, List.elem_iff]

/-- C4 witness: the two-feature schema with only `a` supplied fails naming
exactly `b`. -/
theorem missing_features_rejected_witness :
    ∃ miss, preprocess_features schemaAB [("a", Value.num 1)] = .error miss ∧
      ∀ n, n ∈ miss ↔
        (n ∈ schemaAB.feature_names ∧ n ∉ ([("a", Value.num 1)] : List (String × Value)).map Prod.fst) :=
  missing_features_rejected schemaAB [("a", Value.num 1)] (by decide) "b" (by decide) (by decide)

/-- C7 (corrected, counterexample): a non-numeric string in a
declared-numeric column does not fail alignment — there is no float
coercion and no `TypeCoercionError` in `preprocess_features`; the string
passes through into the aligned row. -/
theorem non_numeric_string_passes_alignment :
    preprocess_features schemaNum [("a", Value.str "abc")] = .ok [Value.str "abc"] :=
  rfl

/-- C7 (amended): during alignment a non-categorical schema feature's value
is passed through unchanged except that a null becomes `0`; no numeric
coercion is attempted and no error is raised for non-numeric values. -/
theorem noncategorical_value_passthrough (schema : Schema) (r : List (String × Value))
    (row : List Value) (i : ℕ) (n : String)
    (hn : schema.feature_names[i]? = some n)
    (hncat : n ∉ schema.categorical_columns)
    (hok : preprocess_features schema r = .ok row) :
    row[i]? = some (fillna ((lookupVal r n).getD Value.null)) := by
  rw [preprocess_features_ok_cell schema r row hok i n hn]
  simp [alignCell, hncat]

/-- C7 amended witness: the numeric-declared feature `a` supplied as the
string `abc` lands in the aligned row unchanged. -/
theorem noncategorical_value_passthrough_witness :
    ([Value.str "abc"] : List Value)[0]? =
      some (fillna ((lookupVal [("a", Value.str "abc")] "a").getD Value.null)) :=
  noncategorical_value_passthrough schemaNum [("a", Value.str "abc")]
    [Value.str "abc"] 0 "a" (by decide) (by decide) rfl

/-- C9: because categorical codes are recomputed per request from the single
row of that request's frame, every declared categorical feature aligns to
the integer `0` whatever raw value was supplied — the training-time
encoding never enters. -/
theorem categorical_cell_always_zero (schema : Schema) (r : List (String × Value))
    (row : List Value) (i : ℕ) (n : String)
    (hn : schema.feature_names[i]? = some n)
    (hcat : n ∈ schema.categorical_columns)
    (hok : preprocess_features schema r = .ok row) :
    row[i]? = some (Value.num 0) := by
  rw [preprocess_features_ok_cell schema r row hok i n hn]
  simp [alignCell, hcat, pdCategoricalCodes_singleton, fillna]

/-- C9 witness: the categorical feature `b` supplied as `y` (training code
`1`) aligns to `0`. -/
theorem categorical_cell_always_zero_witness :
    ([Value.num 0] : List Value)[0]? = some (Value.num 0) :=
  categorical_cell_always_zero schemaCat [("b", Value.str "y")] [Value.num 0] 0 "b"
    (by decide) (by decide) rfl

/-- C10: a feature that is present in the record but null is not rejected;
its aligned cell is the number `0` (for a non-categorical column via
`fillna(0)`, for a categorical one via the recomputed code of the lone
`nan` string). -/
theorem null_value_aligned_to_zero (schema : Schema) (r : List (String × Value))
    (row : List Value) (i : ℕ) (n : String)
    (hn : schema.feature_names[i]? = some n)
    (hnull : lookupVal r n = some Value.null)
    (hok : preprocess_features schema r = .ok row) :
    row[i]? = some (Value.num 0) := by
  rw [preprocess_features_ok_cell schema r row hok i n hn, hnull]
  by_cases hc : n ∈ schema.categorical_columns
  · simp [alignCell, hc, pyStr, pdCategoricalCodes_singleton, fillna]
  · simp [alignCell, hc, fillna]

/-- C10 witness: the numeric feature `a` supplied as null aligns to `0`. -/
theorem null_value_aligned_to_zero_witness :
    ([Value.num 0] : List Value)[0]? = some (Value.num 0) :=
  null_value_aligned_to_zero schemaNum [("a", Value.null)] [Value.num 0] 0 "a"
    (by decide) rfl rfl

/-- C8: permuting the bindings of a feature record (the same
name-to-value mapping in another order) leaves the aligned row unchanged,
and the aligned row's cells follow the schema's feature-name order: cell
`i` is the aligned value of the `i`-th schema feature. -/
theorem alignment_key_order_invariant (schema : Schema) (r1 r2 : List (String × Value))
    (hp : r1.Perm r2) (hnd : (r1.map Prod.fst).Nodup) :
    preprocess_features schema r1 = preprocess_features schema r2 ∧
    ∀ row, preprocess_features schema r1 = .ok row →
      row.length = schema.feature_names.length ∧
      ∀ (i : ℕ) (n : String), schema.feature_names[i]? = some n →
        row[i]? = some (fillna (alignCell schema n ((lookupVal r1 n).getD Value.null))) := by
  have hlook : ∀ n, lookupVal r1 n = lookupVal r2 n :=
    fun n => lookupVal_perm n hp hnd
  have hcon : ∀ n, ((r1.map Prod.fst).contains n) = ((r2.map Prod.fst).contains n) := by
    intro n
    rw [Bool.eq_iff_iff]
    simp only [List.contains, List.elem_iff]
    exact (hp.map Prod.fst).mem_iff
  constructor
  · simp only [preprocess_features]
    rw [show (fun n => !(r1.map Prod.fst).contains n) = (fun n => !(r2.map Prod.fst).contains n)
        from funext fun n => by rw [hcon n]]
    rw [show (fun name => fillna (alignCell schema name ((lookupVal r1 name).getD Value.null)))
          = (fun name => fillna (alignCell schema name ((lookupVal r2 name).getD Value.null)))
        from funext fun name => by rw [hlook name]]
  · intro row hok
    exact ⟨preprocess_features_ok_length schema r1 row hok,
      fun i n hn => preprocess_features_ok_cell schema r1 row hok i n hn⟩

/-- C8 witness: the §8 schema aligned against `{a: 1, b: x}` given in the
two possible key orders. -/
theorem alignment_key_order_invariant_witness :
    preprocess_features schemaAB [("a", Value.num 1), ("b", Value.str "x")] =
        preprocess_features schemaAB [("b", Value.str "x"), ("a", Value.num 1)] ∧
    ∀ row, preprocess_features schemaAB [("a", Value.num 1), ("b", Value.str "x")] = .ok row →
      row.length = schemaAB.feature_names.length ∧
      ∀ (i : ℕ) (n : String), schemaAB.feature_names[i]? = some n →
        row[i]? = some (fillna (alignCell schemaAB n
          ((lookupVal [("a", Value.num 1), ("b", Value.str "x")] n).getD Value.null))) :=
  alignment_key_order_invariant schemaAB
    [("a", Value.num 1), ("b", Value.str "x")] [("b", Value.str "x"), ("a", Value.num 1)]
    (List.Perm.swap ("b", Value.str "x") ("a", Value.num 1) [])
    (by decide)

/-! ## Claim theorems: prediction and batching -/

/-- C2 (corrected, counterexample): a raw backend output of `0.73` yields
class label `1` with confidence `0.46`, not `0.73` — the returned field is
not the raw output. -/
theorem confidence_not_raw_output :
    predict schemaNum (fun _ => 73/100) [("a", Value.num 1)] =
      .ok ⟨1, some (23/50)⟩ ∧ (23/50 : ℚ) ≠ 73/100 := by
  constructor
  · simp [predict, preprocess_features, schemaNum, alignCell, lookupVal, fillna]
    norm_num [abs_of_nonneg]
  · norm_num

/-- When alignment succeeds and the task is classification, `predict`
returns label `int(raw > 0.5)` and confidence `abs(raw - 0.5) * 2`. -/
theorem predict_classification_eq (schema : Schema) (m : List Value → ℚ)
    (r : List (String × Value)) (X : List Value)
    (htask : schema.task_type = "classification")
    (hpre : preprocess_features schema r = .ok X) :
    predict schema m r = .ok ⟨if m X > 1/2 then 1 else 0, some (|m X - 1/2| * 2)⟩ := by
  simp [predict, hpre, htask, ite_self]

/-- C2 (amended): for classification, the confidence returned with a
prediction is `abs(raw - 0.5) * 2` — twice the distance of the raw output
from the decision boundary — and the class label is `int(raw > 0.5)`. -/
theorem confidence_is_scaled_margin (schema : Schema) (m : List Value → ℚ)
    (r : List (String × Value)) (X : List Value)
    (htask : schema.task_type = "classification")
    (hpre : preprocess_features schema r = .ok X) :
    predict schema m r = .ok ⟨if m X > 1/2 then 1 else 0, some (|m X - 1/2| * 2)⟩ :=
  predict_classification_eq schema m r X htask hpre

/-- C2 amended witness: the raw output `0.73` produces confidence
`2 * |0.73 - 0.5|`. -/
theorem confidence_is_scaled_margin_witness :
    predict schemaNum (fun _ => 73/100) [("a", Value.num 1)] =
      .ok ⟨if (73/100 : ℚ) > 1/2 then 1 else 0, some (|(73/100 : ℚ) - 1/2| * 2)⟩ :=
  confidence_is_scaled_margin schemaNum (fun _ => 73/100) [("a", Value.num 1)]
    [Value.num 1] rfl rfl

/-- C5: for classification the label is `1` exactly when the raw output
is strictly greater than `0.5`; at exactly `0.5` the label is `0`. -/
theorem classification_tie_break (schema : Schema) (m : List Value → ℚ)
    (r : List (String × Value)) (X : List Value)
    (htask : schema.task_type = "classification")
    (hpre : preprocess_features schema r = .ok X) :
    ∃ res, predict schema m r = .ok res ∧
      (res.prediction = 1 ↔ 1/2 < m X) ∧ (m X = 1/2 → res.prediction = 0) := by
  refine ⟨⟨if m X > 1/2 then 1 else 0, some (|m X - 1/2| * 2)⟩,
    predict_classification_eq schema m r X htask hpre, ?_, ?_⟩
  · by_cases h : 1/2 < m X <;> simp [h]
  · intro h
    rw [if_neg]
    rw [h]
    exact lt_irrefl _

/-- C5 witness: a model emitting exactly `0.5` yields class label `0`. -/
theorem classification_tie_break_witness :
    ∃ res, predict schemaNum (fun _ => 1/2) [("a", Value.num 1)] = .ok res ∧
      (res.prediction = 1 ↔ (1 : ℚ)/2 < 1/2) ∧ ((1 : ℚ)/2 = 1/2 → res.prediction = 0) :=
  classification_tie_break schemaNum (fun _ => 1/2) [("a", Value.num 1)] [Value.num 1] rfl rfl

/-- C6: scoring the singleton batch `[r]` returns at position 0 exactly the
prediction and confidence of the single-record path on `r` (and the same
error when `r` fails alignment). -/
theorem batch_single_equivalence (schema : Schema) (m : List Value → ℚ)
    (r : List (String × Value)) :
    predict_batch schema m [r] =
      (predict schema m r).map
        (fun res => ⟨[res.prediction], res.confidence.map (fun c => [c])⟩) := by
  simp only [predict_batch, predict, preprocessAll]
  cases hp : preprocess_features schema r with
  | error e => simp [Except.map]
  | ok X =>
    by_cases ht : schema.task_type = "classification" <;>
      simp [ht, Except.map, ite_self]

/-- Any record in the batch that fails alignment makes the whole
preprocessing pass fail (the list comprehension propagates the first
exception). -/
theorem preprocessAll_error_of_mem (schema : Schema) (r : List (String × Value))
    (l : List (List (String × Value))) (e : List String)
    (hr : r ∈ l) (he : preprocess_features schema r = .error e) :
    ∃ e2, preprocessAll schema l = .error e2 := by
  induction l with
  | nil => cases hr
  | cons x t ih =>
    rcases List.mem_cons.mp hr with hx | hmem
    · subst hx
      exact ⟨e, by simp [preprocessAll, he]⟩
    · cases hx2 : preprocess_features schema x with
      | error e3 => exact ⟨e3, by simp [preprocessAll, hx2]⟩
      | ok X =>
        obtain ⟨e2, he2⟩ := ih hmem
        exact ⟨e2, by simp [preprocessAll, hx2, he2]⟩

/-- C3 (corrected, counterexample): a batch holding one valid record and one
invalid record aborts as a whole — it returns the invalid record's error and
no prediction for the valid record, although the valid record scores fine on
its own. -/
theorem batch_no_partial_success :
    predict_batch schemaNum (fun _ => 73/100) [[("a", Value.num 1)], []] = .error ["a"] ∧
    predict schemaNum (fun _ => 73/100) [("a", Value.num 1)] = .ok ⟨1, some (23/50)⟩ := by
  constructor
  · rfl
  · simp [predict, preprocess_features, schemaNum, alignCell, lookupVal, fillna]
    norm_num [abs_of_nonneg]

/-- C3 (amended): a failure on any single record aborts the entire batch —
the record's preprocessing error propagates out of `predict_batch` and none
of the other records' predictions are returned. -/
theorem batch_aborts_on_record_failure (schema : Schema) (m : List Value → ℚ)
    (l : List (List (String × Value))) (r : List (String × Value)) (e : List String)
    (hr : r ∈ l) (he : preprocess_features schema r = .error e) :
    ∃ e2, predict_batch schema m l = .error e2 := by
  obtain ⟨e2, he2⟩ := preprocessAll_error_of_mem schema r l e hr he
  exact ⟨e2, by simp [predict_batch, he2]⟩

/-- C3 amended witness: the two-record batch from the counterexample
errors as a whole. -/
theorem batch_aborts_on_record_failure_witness :
    ∃ e2, predict_batch schemaNum (fun _ => 73/100) [[("a", Value.num 1)], []] = .error e2 :=
  batch_aborts_on_record_failure schemaNum (fun _ => 73/100)
    [[("a", Value.num 1)], []] [] ["a"] (by simp) rfl
